import Mathlib

/-!
Verification of `internal/model/base.go` of the `gen` code generator.

The Go file is shallowly embedded below: strings are Lean `String`s, byte
buffers are lists of characters (the program only ever handles ASCII SQL
text and identifiers), the process-wide mutable type registry becomes an
explicit association list passed through `Get`/`Set`, and pointer-mutating
methods on `Field` return the updated record.
-/

namespace GenModel

/-! ### Helpers from Go's `strings` package, over character lists -/

/-- `unicode.IsSpace` restricted to the ASCII range (space, tab, newline,
vertical tab, form feed, carriage return); used by `strings.TrimSpace`. -/
def isSpaceChar (c : Char) : Bool :=
  c == ' ' || c == '\t' || c == '\n' || c == '\x0b' || c == '\x0c' || c == '\r'

/-- `strings.TrimSpace`: drop whitespace from both ends. -/
def strTrimSpace (s : String) : String :=
  String.mk (((s.data.dropWhile (fun c => isSpaceChar c)).reverse.dropWhile
    (fun c => isSpaceChar c)).reverse)

/-- ASCII lower-casing of one character, as `strings.ToLower` does per rune. -/
def lowerChar (c : Char) : Char :=
  if 'A' ≤ c ∧ c ≤ 'Z' then Char.ofNat (c.toNat + 32) else c

/-- `strings.ToLower` (ASCII range). -/
def strToLower (s : String) : String := String.mk (s.data.map lowerChar)

/-- Does `l` start with `pat`?  Character-list core of `strings.HasPrefix`. -/
def startsWithList : List Char → List Char → Bool
  | _, [] => true
  | [], _ :: _ => false
  | a :: as, b :: bs => a == b && startsWithList as bs

/-- `strings.HasPrefix s pre`. -/
def strStartsWith (s pre : String) : Bool := startsWithList s.data pre.data

/-- Does `pat` occur as a contiguous run inside `text`?  Core of
`strings.Contains`. -/
def containsList : List Char → List Char → Bool
  | [], pat => pat.isEmpty
  | t :: ts, pat => startsWithList (t :: ts) pat || containsList ts pat

/-- `strings.Contains text pat`. -/
def strContains (text pat : String) : Bool := containsList text.data pat.data

/-- `strings.TrimLeft s "*"`: drop every leading `'*'`. -/
def strTrimLeftStar (s : String) : String :=
  String.mk (s.data.dropWhile (fun c => c == '*'))

/-- ASCII upper-casing of one character. -/
def upperChar (c : Char) : Char :=
  if 'a' ≤ c ∧ c ≤ 'z' then Char.ofNat (c.toNat - 32) else c

/-- Is `c` an ASCII letter? -/
def isLetterChar (c : Char) : Bool :=
  ('a' ≤ c && c ≤ 'z') || ('A' ≤ c && c ≤ 'Z')

/-- Characters that continue a word for `strings.Title` (letters, digits,
underscore are non-separators). -/
def isWordChar (c : Char) : Bool :=
  isLetterChar c || ('0' ≤ c && c ≤ '9') || c == '_'

/-- Worker for `strings.Title`: upper-case every letter that begins a word.
The flag records whether the previous character was part of a word. -/
def titleAux : Bool → List Char → List Char
  | _, [] => []
  | prevInWord, c :: cs =>
    (if prevInWord then c else if isLetterChar c then upperChar c else c) ::
      titleAux (isWordChar c) cs

/-- `strings.Title` (ASCII range). -/
def strTitle (s : String) : String := String.mk (titleAux false s.data)

/-! ### `KeyWord` and the three reserved-word sets -/

/-- `type KeyWord struct { words []string }` -/
structure KeyWord where
  words : List String
deriving DecidableEq

/-- `func (g *KeyWord) FullMatch(word string) bool` -/
def KeyWord.FullMatch (g : KeyWord) (word : String) : Bool :=
  g.words.any (fun item => word == item)

/-- `func (g *KeyWord) Contain(text string) bool` -/
def KeyWord.Contain (g : KeyWord) (text : String) : Bool :=
  g.words.any (fun item => strContains text item)

/-- `var GormKeywords = KeyWord{words: []string{...}}` -/
def GormKeywords : KeyWord :=
  { words := [
      "UnderlyingDB", "UseDB", "UseModel", "UseTable", "Quote", "Debug", "TableName", "WithContext",
      "As", "Not", "Or", "Build", "Columns", "Hints",
      "Distinct", "Omit",
      "Select", "Where", "Order", "Group", "Having", "Limit", "Offset",
      "Join", "LeftJoin", "RightJoin",
      "Save", "Create", "CreateInBatches",
      "Update", "Updates", "UpdateColumn", "UpdateColumns",
      "Find", "FindInBatches", "First", "Take", "Last", "Pluck", "Count",
      "Scan", "ScanRows", "Row", "Rows",
      "Delete", "Unscoped",
      "Scopes"] }

/-- `var DOKeywords = KeyWord{words: []string{...}}` -/
def DOKeywords : KeyWord :=
  { words := ["Alias", "TableName", "WithContext"] }

/-- `var GenKeywords = KeyWord{words: []string{...}}` -/
def GenKeywords : KeyWord :=
  { words := ["generateSQL", "whereClause", "setClause"] }

/-! ### The type-mapping registry -/

/-- `var defaultDataType = "string"` -/
def defaultDataType : String := "string"

/-- `type dataTypeMapping func(detailType string) (finalType string)` -/
abbrev dataTypeMapping := String → String

/-- `type dataTypeMap map[string]dataTypeMapping`, modelled as an
association list with unique keys (first binding wins, as a Go map). -/
abbrev dataTypeMap := List (String × dataTypeMapping)

/-- `func (m dataTypeMap) Get(dataType, detailType string) string` -/
def dataTypeMap.Get (m : dataTypeMap) (dataType detailType : String) : String :=
  match List.lookup (strToLower dataType) m with
  | some convert => convert detailType
  | none => defaultDataType

/-- Go map assignment `m[k] = fn`: replace the binding of `k` if present,
otherwise add one. -/
def dataTypeMap.set (m : dataTypeMap) (k : String) (fn : dataTypeMapping) : dataTypeMap :=
  match m with
  | [] => [(k, fn)]
  | (k₀, f₀) :: rest =>
    if k₀ == k then (k, fn) :: rest else (k₀, f₀) :: dataTypeMap.set rest k fn

/-- `var dataType dataTypeMap = map[string]dataTypeMapping{...}`: the
built-in table. -/
def dataType : dataTypeMap := [
  ("numeric", fun _ => "int32"),
  ("integer", fun _ => "int32"),
  ("int", fun _ => "int32"),
  ("smallint", fun _ => "int32"),
  ("mediumint", fun _ => "int32"),
  ("bigint", fun _ => "int64"),
  ("float", fun _ => "float32"),
  ("real", fun _ => "float64"),
  ("double", fun _ => "float64"),
  ("decimal", fun _ => "float64"),
  ("char", fun _ => "string"),
  ("varchar", fun _ => "string"),
  ("tinytext", fun _ => "string"),
  ("mediumtext", fun _ => "string"),
  ("longtext", fun _ => "string"),
  ("binary", fun _ => "[]byte"),
  ("varbinary", fun _ => "[]byte"),
  ("tinyblob", fun _ => "[]byte"),
  ("blob", fun _ => "[]byte"),
  ("mediumblob", fun _ => "[]byte"),
  ("longblob", fun _ => "[]byte"),
  ("text", fun _ => "string"),
  ("json", fun _ => "string"),
  ("enum", fun _ => "string"),
  ("time", fun _ => "time.Time"),
  ("date", fun _ => "time.Time"),
  ("datetime", fun _ => "time.Time"),
  ("timestamp", fun _ => "time.Time"),
  ("year", fun _ => "int32"),
  ("bit", fun _ => "[]uint8"),
  ("boolean", fun _ => "bool"),
  ("tinyint", fun detailType =>
    if strStartsWith (strTrimSpace detailType) "tinyint(1)" then "bool" else "int32")]

/-- `func GetDataType(sqlDataType string) string` -/
def GetDataType (sqlDataType : String) : String :=
  dataTypeMap.Get dataType sqlDataType ""

/-- `func SetDataType(dbType string, getTypeFunc dataTypeMapping)`, with the
registry threaded explicitly instead of as global state. -/
def SetDataType (m : dataTypeMap) (dbType : String) (getTypeFunc : dataTypeMapping) : dataTypeMap :=
  dataTypeMap.set m dbType getTypeFunc

/-! ### Field descriptors -/

/-- Modelled from the spec: the primary reserved tag key of the external
`field` package (`field.TagKeyGorm`), whose source is not part of `src/`. -/
def TagKeyGorm : String := "gorm"

/-- Modelled from the spec: `field.Tag`, "structured key→value tag entries";
the external `field` package is not part of `src/`.  An association list
read as a map (first binding wins). -/
abbrev Tag := List (String × String)

/-- Modelled from the spec: membership of a key in the tag map (the Go
comma-ok map read `_, ok := m.Tag[key]`). -/
def Tag.containsKey (t : Tag) (k : String) : Bool :=
  (List.lookup k t).isSome

/-- Modelled from the spec: `field.Tag.Set`, installing a value under a key
(replace if present, else add). -/
def Tag.set (t : Tag) (k v : String) : Tag :=
  match t with
  | [] => [(k, v)]
  | (k₀, v₀) :: rest =>
    if k₀ == k then (k, v) :: rest else (k₀, v₀) :: Tag.set rest k v

/-- Modelled from the spec: `field.Tag.Build`, rendering the entries to the
tag text; the exact format is unspecified, so entries are rendered as
`key:"value"` separated by single spaces. -/
def Tag.build (t : Tag) : String :=
  match t with
  | [] => ""
  | [(k, v)] => k ++ ":\"" ++ v ++ "\""
  | (k, v) :: rest => k ++ ":\"" ++ v ++ "\" " ++ Tag.build rest

/-- Modelled from the spec: `field.GormTag`, the "secondary structured tag
with its own key/value pairs"; the external `field` package is not part of
`src/`. -/
abbrev GormTag := List (String × String)

/-- Modelled from the spec: `field.GormTag.Build`, rendering the secondary
tag's key/value pairs; the exact format is unspecified, so entries are
rendered as `key:value` separated by semicolons. -/
def GormTag.build (g : GormTag) : String :=
  match g with
  | [] => ""
  | [(k, v)] => k ++ ":" ++ v
  | (k, v) :: rest => k ++ ":" ++ v ++ ";" ++ GormTag.build rest

/-- Modelled from the spec: `field.Relation` is an opaque relation
descriptor; the claims only ever test its presence, never its contents. -/
abbrev Relation := Unit

/-- `type Field struct {...}` -/
structure Field where
  Name : String
  «Type» : String
  ColumnName : String
  ColumnComment : String
  MultilineComment : Bool
  Tag : Tag
  GORMTag : GormTag
  CustomGenType : String
  Relation : Option Relation
deriving DecidableEq

/-- `func (m *Field) Tags() string`; the receiver's mutation of `m.Tag` is
returned alongside the rendered string. -/
def Field.Tags (m : Field) : String × Field :=
  if Tag.containsKey m.Tag TagKeyGorm then
    (Tag.build m.Tag, m)
  else
    let gormTag := strTrimSpace (GormTag.build m.GORMTag)
    if gormTag ≠ "" then
      let t := Tag.set m.Tag TagKeyGorm gormTag
      (Tag.build t, { m with Tag := t })
    else
      (Tag.build m.Tag, m)

/-- `func (m *Field) IsRelation() bool { return m.Relation != nil }` -/
def Field.IsRelation (m : Field) : Bool := m.Relation.isSome

/-- `func (m *Field) GenType() string` -/
def Field.GenType (m : Field) : String :=
  if m.IsRelation then m.«Type»
  else if m.CustomGenType ≠ "" then m.CustomGenType
  else
    let typ := strTrimLeftStar m.«Type»
    if typ = "string" ∨ typ = "bytes" then strTitle typ
    else if typ = "int" ∨ typ = "int8" ∨ typ = "int16" ∨ typ = "int32" ∨ typ = "int64" ∨
        typ = "uint" ∨ typ = "uint8" ∨ typ = "uint16" ∨ typ = "uint32" ∨ typ = "uint64" then
      strTitle typ
    else if typ = "float64" ∨ typ = "float32" then strTitle typ
    else if typ = "bool" then strTitle typ
    else if typ = "time.Time" then "Time"
    else if typ = "json.RawMessage" ∨ typ = "[]byte" then "Bytes"
    else if typ = "serializer" then "Serializer"
    else "Field"

/-- `func (m *Field) EscapeKeywordFor(keywords KeyWord) *Field`; the mutated
receiver is the return value. -/
def Field.EscapeKeywordFor (m : Field) (keywords : KeyWord) : Field :=
  if KeyWord.FullMatch keywords m.Name then { m with Name := m.Name ++ "_" } else m

/-- `func (m *Field) EscapeKeyword() *Field` -/
def Field.EscapeKeyword (m : Field) : Field :=
  Field.EscapeKeywordFor m GormKeywords

/-! ### The SQL text normalizer -/

/-- `type SQLBuffer struct{ bytes.Buffer }`: the accumulated bytes, in
order (ASCII text, so bytes are characters here). -/
abbrev SQLBuffer := List Char

/-- `func (s *SQLBuffer) WriteSQL(b byte)` -/
def SQLBuffer.WriteSQL (s : SQLBuffer) (b : Char) : SQLBuffer :=
  if b = '\n' ∨ b = '\t' ∨ b = ' ' then
    if s = [] ∨ s.getLast? ≠ some ' ' then s ++ [' '] else s
  else s ++ [b]

/-- Feed a whole byte sequence through `WriteSQL`, left to right. -/
def SQLBuffer.writeAll (s : SQLBuffer) (input : List Char) : SQLBuffer :=
  input.foldl SQLBuffer.WriteSQL s

/-- `func (s *SQLBuffer) Dump() string`: return the accumulated text and
the reset buffer. -/
def SQLBuffer.Dump (s : SQLBuffer) : String × SQLBuffer :=
  (String.mk s, [])

/-! ### Registry lemmas -/

/-- After `m[k] = fn`, looking `k` up yields `fn`. -/
theorem lookup_dataTypeMap_set (m : dataTypeMap) (k : String) (fn : dataTypeMapping) :
    List.lookup k (dataTypeMap.set m k fn) = some fn := by
  induction m with
  | nil => simp [dataTypeMap.set, List.lookup]
  | cons hd tl ih =>
    obtain ⟨k₀, f₀⟩ := hd
    by_cases h : k₀ = k
    · subst h
      simp [dataTypeMap.set, List.lookup]
    · have h₁ : (k₀ == k) = false := by simp [h]
      have h₂ : (k == k₀) = false := by
        simp
        exact fun e => h e.symm
      simp [dataTypeMap.set, List.lookup, h₁, h₂, ih]

/-- A lookup miss makes `Get` fall back to the default type. -/
theorem get_eq_default_of_not_found (m : dataTypeMap) (name d : String)
    (h : List.lookup (strToLower name) m = none) :
    dataTypeMap.Get m name d = defaultDataType := by
  unfold dataTypeMap.Get
  rw [h]

/-! ### Claims -/

/-- Claim C1 counterexample: registering a mapping under the key `"Custom"`
(which is not identical to its lower-casing) and then looking the very same
spelling up does not return the registered function's value `"mytype"`; the
lookup lower-cases the key, `Set` stores it verbatim, so `Get` falls back to
the default `"string"`. -/
theorem setDataType_case_roundtrip_cex :
    dataTypeMap.Get (SetDataType dataType "Custom" (fun _ => "mytype")) "Custom" "xyz" = "string" ∧
    ((fun _ => "mytype" : dataTypeMapping)) "xyz" = "mytype" ∧
    ("string" : String) ≠ "mytype" :=
  ⟨by decide, rfl, by decide⟩

/-- Claim C1 (amended): for a registration key that is invariant under
lower-casing, registration round-trips — after `SetDataType k fn`, a `Get`
on any letter casing of `k` returns `fn d` exactly, and a later
`SetDataType k fn2` makes subsequent `Get` calls return `fn2 d`. -/
theorem setDataType_roundtrip (m : dataTypeMap) (k k' d : String)
    (fn fn2 : dataTypeMapping) (_hk : strToLower k = k) (hk' : strToLower k' = k) :
    dataTypeMap.Get (SetDataType m k fn) k' d = fn d ∧
    dataTypeMap.Get (SetDataType (SetDataType m k fn) k fn2) k' d = fn2 d := by
  constructor
  · unfold dataTypeMap.Get SetDataType
    rw [hk', lookup_dataTypeMap_set]
  · unfold dataTypeMap.Get SetDataType
    rw [hk', lookup_dataTypeMap_set]

/-- Witness for the amended Claim C1 at `k = "custom"`, `k' = "CUSTOM"`. -/
theorem setDataType_roundtrip_witness :
    strToLower "custom" = "custom" ∧ strToLower "CUSTOM" = "custom" ∧
    dataTypeMap.Get (SetDataType dataType "custom" (fun d => d ++ "!")) "CUSTOM" "7" = "7" ++ "!" ∧
    dataTypeMap.Get (SetDataType (SetDataType dataType "custom" (fun d => d ++ "!"))
      "custom" (fun d => d ++ "?")) "CUSTOM" "7" = "7" ++ "?" :=
  ⟨by decide, by decide,
   (setDataType_roundtrip dataType "custom" "CUSTOM" "7"
     (fun d => d ++ "!") (fun d => d ++ "?") (by decide) (by decide)).1,
   (setDataType_roundtrip dataType "custom" "CUSTOM" "7"
     (fun d => d ++ "!") (fun d => d ++ "?") (by decide) (by decide)).2⟩

/-- Claim C2: for the schema type `"tinyint"`, `Get` returns `"bool"`
exactly when the whitespace-trimmed detail string begins with the literal
`"tinyint(1)"` and `"int32"` for every other detail string; in particular
on `"tinyint(1) unsigned"`, `"tinyint(4)"` and `""`. -/
theorem tinyint_detail_mapping :
    (∀ d : String, dataTypeMap.Get dataType "tinyint" d =
      if strStartsWith (strTrimSpace d) "tinyint(1)" then "bool" else "int32") ∧
    dataTypeMap.Get dataType "tinyint" "tinyint(1) unsigned" = "bool" ∧
    dataTypeMap.Get dataType "tinyint" "tinyint(4)" = "int32" ∧
    dataTypeMap.Get dataType "tinyint" "" = "int32" :=
  ⟨fun _ => rfl, by decide, by decide, by decide⟩

/-- Claim C7: every type name whose lower-casing is absent from the mapping
table yields the fixed default `"string"` for any detail string. -/
theorem unmapped_type_defaults (name d : String)
    (h : (List.lookup (strToLower name) dataType).isNone = true) :
    dataTypeMap.Get dataType name d = "string" :=
  get_eq_default_of_not_found dataType name d (Option.isNone_iff_eq_none.mp h)

/-- Witness for Claim C7 at `"nonexistent_type"`. -/
theorem unmapped_type_defaults_witness :
    (List.lookup (strToLower "nonexistent_type") dataType).isNone = true ∧
    dataTypeMap.Get dataType "nonexistent_type" "" = "string" :=
  ⟨by decide, unmapped_type_defaults "nonexistent_type" "" (by decide)⟩

/-- Claim C9: `Dump` returns the full accumulated text and resets the
buffer: a never-fed buffer drains to `""`, an immediate second `Dump`
yields `""`, and after a drain, feeding `"x"` and draining again yields
exactly `"x"`, whatever the buffer held before. -/
theorem dump_drains_and_resets (s prior : SQLBuffer) :
    SQLBuffer.Dump s = (String.mk s, []) ∧
    (SQLBuffer.Dump ([] : SQLBuffer)).1 = "" ∧
    (SQLBuffer.Dump (SQLBuffer.Dump s).2).1 = "" ∧
    (SQLBuffer.Dump (SQLBuffer.writeAll (SQLBuffer.Dump prior).2 ("x".data))).1 = "x" :=
  ⟨rfl, rfl, rfl, rfl⟩

/-- Claim C10: the one-argument wrapper `GetDataType t` equals
`Get t ""`; every unmapped type name yields the non-empty default
`"string"`, and `GetDataType "tinyint"` is `"int32"` (the empty detail
never triggers the boolean branch). -/
theorem getDataType_wrapper (t : String) :
    GetDataType t = dataTypeMap.Get dataType t "" ∧
    ((List.lookup (strToLower t) dataType).isNone = true →
      GetDataType t = "string" ∧ ("string" : String) ≠ "") ∧
    GetDataType "tinyint" = "int32" :=
  ⟨rfl,
   fun h => ⟨get_eq_default_of_not_found dataType t "" (Option.isNone_iff_eq_none.mp h),
     by decide⟩,
   by decide⟩

/-- The classification table of `GenType`'s final branch, as the claim and
spec word it, applied to an already-stripped type string. -/
def classifyGenType (typ : String) : String :=
  if typ = "string" ∨ typ = "bytes" then strTitle typ
  else if typ = "int" ∨ typ = "int8" ∨ typ = "int16" ∨ typ = "int32" ∨ typ = "int64" ∨
      typ = "uint" ∨ typ = "uint8" ∨ typ = "uint16" ∨ typ = "uint32" ∨ typ = "uint64" then
    strTitle typ
  else if typ = "float64" ∨ typ = "float32" then strTitle typ
  else if typ = "bool" then strTitle typ
  else if typ = "time.Time" then "Time"
  else if typ = "json.RawMessage" ∨ typ = "[]byte" then "Bytes"
  else if typ = "serializer" then "Serializer"
  else "Field"

/-- Stripping a single leading `'*'`, as Claim C3 words it. -/
def stripOneStar (s : String) : String :=
  match s.data with
  | '*' :: rest => String.mk rest
  | _ => s

/-- The `GenType` algorithm exactly as Claim C3 states it: a single leading
pointer marker is stripped before classification. -/
def genTypeClaimSingle (m : Field) : String :=
  if m.IsRelation then m.«Type»
  else if m.CustomGenType ≠ "" then m.CustomGenType
  else classifyGenType (stripOneStar m.«Type»)

/-- The `GenType` algorithm as amended: all leading pointer markers are
stripped (`strings.TrimLeft`) before classification. -/
def genTypeClaimAll (m : Field) : String :=
  if m.IsRelation then m.«Type»
  else if m.CustomGenType ≠ "" then m.CustomGenType
  else classifyGenType (strTrimLeftStar m.«Type»)

/-- A concrete non-relation descriptor with a doubly-starred type. -/
def doubleStarField : Field :=
  { Name := "N", «Type» := "**int64", ColumnName := "", ColumnComment := "",
    MultilineComment := false, Tag := [], GORMTag := [], CustomGenType := "",
    Relation := none }

/-- The same descriptor with a plain `"int64"` type. -/
def int64Field : Field := { doubleStarField with «Type» := "int64" }

/-- `strings.TrimLeft` absorbs a prepended `'*'`. -/
theorem strTrimLeftStar_star (t : String) :
    strTrimLeftStar ("*" ++ t) = strTrimLeftStar t := by
  unfold strTrimLeftStar
  rw [String.data_append]
  rfl

/-- Claim C3 counterexample: on the non-relation type `"**int64"` the code
strips all leading `'*'` markers (`strings.TrimLeft`) and classifies to
`"Int64"`, while the claim's single-strip algorithm leaves `"*int64"`,
which falls through to `"Field"`. -/
theorem genType_single_strip_cex :
    Field.GenType doubleStarField = "Int64" ∧
    genTypeClaimSingle doubleStarField = "Field" ∧
    Field.GenType doubleStarField ≠ genTypeClaimSingle doubleStarField :=
  ⟨by decide, by decide, by decide⟩

/-- Claim C3 (amended): `GenType` returns the stored type string unchanged
for relation fields (even when a custom override is set), the custom
override verbatim otherwise when it is set, and else classifies the type
string with ALL leading `'*'` markers stripped; prepending one `'*'` to a
non-relation, non-overridden descriptor's type never changes the
classification. -/
theorem genType_classification (m : Field) :
    Field.GenType m = genTypeClaimAll m ∧
    (m.IsRelation = false → m.CustomGenType = "" →
      Field.GenType { m with «Type» := "*" ++ m.«Type» } = Field.GenType m) := by
  have key : ∀ x : Field, Field.GenType x = genTypeClaimAll x := fun _ => rfl
  refine ⟨key m, fun h1 h2 => ?_⟩
  have h1' : m.Relation.isSome = false := h1
  rw [key, key]
  simp [genTypeClaimAll, Field.IsRelation, h1', h2, strTrimLeftStar_star]

/-- Witness for the amended Claim C3 at a descriptor typed `"int64"`:
`GenType` on `"*int64"` equals `GenType` on `"int64"`. -/
theorem genType_classification_witness :
    Field.GenType int64Field = genTypeClaimAll int64Field ∧
    Field.GenType { int64Field with «Type» := "*" ++ int64Field.«Type» } =
      Field.GenType int64Field :=
  ⟨(genType_classification int64Field).1,
   (genType_classification int64Field).2 (by decide) (by decide)⟩

/-- Witness for Claim C10 at `"nonexistent_type"`. -/
theorem getDataType_wrapper_witness :
    GetDataType "nonexistent_type" = dataTypeMap.Get dataType "nonexistent_type" "" ∧
    (GetDataType "nonexistent_type" = "string" ∧ ("string" : String) ≠ "") ∧
    GetDataType "tinyint" = "int32" :=
  ⟨(getDataType_wrapper "nonexistent_type").1,
   (getDataType_wrapper "nonexistent_type").2.1 (by decide),
   (getDataType_wrapper "nonexistent_type").2.2⟩

/-- A name with `'_'` appended never fully matches a keyword set none of
whose words ends in `'_'`. -/
theorem fullMatch_append_underscore (ks : KeyWord)
    (hw : ks.words.all (fun w => !(w.data.getLast? == some '_')) = true)
    (name : String) :
    KeyWord.FullMatch ks (name ++ "_") = false := by
  unfold KeyWord.FullMatch
  rw [List.any_eq_false]
  intro w hwmem heq
  have hlast := List.all_eq_true.mp hw w hwmem
  have hw' : name ++ "_" = w := eq_of_beq heq
  have hconcat : (name ++ "_").data.getLast? = some '_' := by
    rw [String.data_append]
    exact List.getLast?_concat name.data
  rw [← hw'] at hlast
  simp [hconcat] at hlast

/-- Double application of `EscapeKeywordFor` collapses to one application
whenever no word of the keyword set ends in `'_'`. -/
theorem escapeKeywordFor_twice (ks : KeyWord)
    (hw : ks.words.all (fun w => !(w.data.getLast? == some '_')) = true)
    (m : Field) :
    Field.EscapeKeywordFor (Field.EscapeKeywordFor m ks) ks =
      Field.EscapeKeywordFor m ks := by
  unfold Field.EscapeKeywordFor
  by_cases h : KeyWord.FullMatch ks m.Name = true
  · simp only [h, if_pos]
    have hfalse : KeyWord.FullMatch ks (m.Name ++ "_") = false :=
      fullMatch_append_underscore ks hw m.Name
    simp [hfalse]
  · simp only [Bool.not_eq_true] at h
    simp [h]

/-- A concrete descriptor named `"Find"`. -/
def findField : Field :=
  { Name := "Find", «Type» := "int64", ColumnName := "", ColumnComment := "",
    MultilineComment := false, Tag := [], GORMTag := [], CustomGenType := "",
    Relation := none }

/-- Claim C6: `EscapeKeywordFor` appends exactly one trailing underscore to
the name when `FullMatch` holds, leaves the descriptor untouched otherwise,
and changes no other component; no word of the three keyword lists ends in
`'_'`, so a second application with the same list never double-appends; a
descriptor named `"Find"` escapes to `"Find_"` and stays `"Find_"`. -/
theorem escapeKeyword_idempotent :
    (∀ (m : Field) (ks : KeyWord), Field.EscapeKeywordFor m ks =
      if KeyWord.FullMatch ks m.Name then { m with Name := m.Name ++ "_" } else m) ∧
    (GormKeywords.words.all (fun w => !(w.data.getLast? == some '_')) = true ∧
     DOKeywords.words.all (fun w => !(w.data.getLast? == some '_')) = true ∧
     GenKeywords.words.all (fun w => !(w.data.getLast? == some '_')) = true) ∧
    (∀ m : Field,
      Field.EscapeKeywordFor (Field.EscapeKeywordFor m GormKeywords) GormKeywords =
        Field.EscapeKeywordFor m GormKeywords ∧
      Field.EscapeKeywordFor (Field.EscapeKeywordFor m DOKeywords) DOKeywords =
        Field.EscapeKeywordFor m DOKeywords ∧
      Field.EscapeKeywordFor (Field.EscapeKeywordFor m GenKeywords) GenKeywords =
        Field.EscapeKeywordFor m GenKeywords) ∧
    ((Field.EscapeKeyword findField).Name = "Find_" ∧
     Field.EscapeKeyword (Field.EscapeKeyword findField) = Field.EscapeKeyword findField) :=
  ⟨fun _ _ => rfl,
   ⟨by decide, by decide, by decide⟩,
   fun m => ⟨escapeKeywordFor_twice GormKeywords (by decide) m,
     escapeKeywordFor_twice DOKeywords (by decide) m,
     escapeKeywordFor_twice GenKeywords (by decide) m⟩,
   by decide,
   by decide⟩

/-- `startsWithList l pat` decides the list-prefix relation. -/
theorem startsWithList_iff (pat : List Char) :
    ∀ l : List Char, startsWithList l pat = true ↔ pat <+: l := by
  induction pat with
  | nil =>
    intro l
    cases l <;> simp [startsWithList]
  | cons b bs ih =>
    intro l
    cases l with
    | nil => simp [startsWithList]
    | cons a as =>
      rw [List.cons_prefix_cons, show startsWithList (a :: as) (b :: bs) =
        (a == b && startsWithList as bs) from rfl, Bool.and_eq_true, beq_iff_eq, ih as]
      exact ⟨fun ⟨h1, h2⟩ => ⟨h1.symm, h2⟩, fun ⟨h1, h2⟩ => ⟨h1.symm, h2⟩⟩

/-- `containsList text pat` decides the contiguous-substring relation. -/
theorem containsList_iff (pat : List Char) :
    ∀ text : List Char, containsList text pat = true ↔ pat <:+: text := by
  intro text
  induction text with
  | nil => simp [containsList, List.isEmpty_iff]
  | cons t ts ih =>
    simp [containsList, List.infix_cons_iff, startsWithList_iff, ih]

/-- Claim C8: `FullMatch` is exact, case-sensitive membership; `Contain` is
substring containment of some member; for the query-builder set,
`FullMatch "Find"` holds, `FullMatch "findAll"` fails, and
`Contain "myFindByID"` holds. -/
theorem keyword_match_semantics :
    (∀ (ks : KeyWord) (word : String),
      KeyWord.FullMatch ks word = true ↔ word ∈ ks.words) ∧
    (∀ (ks : KeyWord) (text : String),
      KeyWord.Contain ks text = true ↔ ∃ item ∈ ks.words, item.data <:+: text.data) ∧
    KeyWord.FullMatch GormKeywords "Find" = true ∧
    KeyWord.FullMatch GormKeywords "findAll" = false ∧
    KeyWord.Contain GormKeywords "myFindByID" = true := by
  refine ⟨fun ks word => ?_, fun ks text => ?_, by decide, by decide, by decide⟩
  · unfold KeyWord.FullMatch
    simp [List.any_eq_true]
  · unfold KeyWord.Contain strContains
    simp [List.any_eq_true, containsList_iff]

/-- After `Tag.set t k v`, the key `k` is present. -/
theorem containsKey_tag_set (t : Tag) (k v : String) :
    Tag.containsKey (Tag.set t k v) k = true := by
  induction t with
  | nil => simp [Tag.set, Tag.containsKey, List.lookup]
  | cons hd tl ih =>
    obtain ⟨k₀, v₀⟩ := hd
    by_cases h : k₀ = k
    · subst h
      simp [Tag.set, Tag.containsKey, List.lookup]
    · have h₁ : (k₀ == k) = false := by simp [h]
      have h₂ : (k == k₀) = false := by
        simp
        exact fun e => h e.symm
      simp [Tag.set, Tag.containsKey, List.lookup, h₁, h₂]
      simpa [Tag.containsKey] using ih

/-- A concrete descriptor with no tag data at all. -/
def noTagField : Field :=
  { Name := "F", «Type» := "int64", ColumnName := "c", ColumnComment := "",
    MultilineComment := false, Tag := [], GORMTag := [], CustomGenType := "",
    Relation := none }

/-- The same descriptor with a pre-populated primary (gorm) tag entry. -/
def presetTagField : Field :=
  { noTagField with Tag := [("gorm", "preset"), ("json", "f")] }

/-- The same descriptor with secondary (structured gorm) tag data only. -/
def gormTagField : Field :=
  { noTagField with GORMTag := [("column", "id")] }

/-- Claim C5: `Tags` returns the rendered primary tag verbatim when the
primary reserved key is already present; otherwise it renders the secondary
structured tag and installs it under the primary key only when that
rendering is non-empty after trimming; and `Tags` is idempotent — a second
call on the (possibly mutated) descriptor returns the same string. -/
theorem tags_render (m : Field) :
    (Tag.containsKey m.Tag TagKeyGorm = true → Field.Tags m = (Tag.build m.Tag, m)) ∧
    (Tag.containsKey m.Tag TagKeyGorm = false →
      strTrimSpace (GormTag.build m.GORMTag) = "" →
      Field.Tags m = (Tag.build m.Tag, m)) ∧
    (Tag.containsKey m.Tag TagKeyGorm = false →
      strTrimSpace (GormTag.build m.GORMTag) ≠ "" →
      Field.Tags m =
        (Tag.build (Tag.set m.Tag TagKeyGorm (strTrimSpace (GormTag.build m.GORMTag))),
         { m with Tag := Tag.set m.Tag TagKeyGorm (strTrimSpace (GormTag.build m.GORMTag)) })) ∧
    (Field.Tags (Field.Tags m).2).1 = (Field.Tags m).1 := by
  refine ⟨fun h => ?_, fun h h0 => ?_, fun h h0 => ?_, ?_⟩
  · simp [Field.Tags, h]
  · simp [Field.Tags, h, h0]
  · simp [Field.Tags, h, h0]
  · by_cases hk : Tag.containsKey m.Tag TagKeyGorm = true
    · simp [Field.Tags, hk]
    · have hk' : Tag.containsKey m.Tag TagKeyGorm = false := by
        simpa using hk
      by_cases hg : strTrimSpace (GormTag.build m.GORMTag) = ""
      · simp [Field.Tags, hk', hg]
      · have hset := containsKey_tag_set m.Tag TagKeyGorm
          (strTrimSpace (GormTag.build m.GORMTag))
        simp [Field.Tags, hk', hg, hset]

/-- Witness for Claim C5: the three rendering branches and the idempotence
at concrete descriptors. -/
theorem tags_render_witness :
    Field.Tags presetTagField = (Tag.build presetTagField.Tag, presetTagField) ∧
    Field.Tags noTagField = (Tag.build noTagField.Tag, noTagField) ∧
    Field.Tags gormTagField =
      (Tag.build (Tag.set gormTagField.Tag TagKeyGorm
        (strTrimSpace (GormTag.build gormTagField.GORMTag))),
       { gormTagField with Tag := (Tag.set gormTagField.Tag TagKeyGorm
          (strTrimSpace (GormTag.build gormTagField.GORMTag))) }) ∧
    (Field.Tags (Field.Tags gormTagField).2).1 = (Field.Tags gormTagField).1 :=
  ⟨(tags_render presetTagField).1 (by decide),
   (tags_render noTagField).2.1 (by decide) (by decide),
   (tags_render gormTagField).2.2.1 (by decide) (by decide),
   (tags_render gormTagField).2.2.2⟩

/-- The bytes `WriteSQL` treats as whitespace (`'\n'`, `'\t'`, `' '`). -/
def isSQLSpace (c : Char) : Bool :=
  c == '\n' || c == '\t' || c == ' '

/-- No two consecutive whitespace bytes. -/
def noConsecWS (l : List Char) : Prop :=
  l.Chain' (fun a b => ¬(isSQLSpace a = true ∧ isSQLSpace b = true))

/-- `isSQLSpace` decides the whitespace condition of `WriteSQL`'s switch. -/
theorem isSQLSpace_iff (c : Char) :
    isSQLSpace c = true ↔ (c = '\n' ∨ c = '\t' ∨ c = ' ') := by
  simp [isSQLSpace, or_assoc]

/-- One `WriteSQL` step preserves the buffer invariant: every whitespace
byte held is a plain space, and no two consecutive bytes are whitespace. -/
theorem writeSQL_preserves_inv (buf : SQLBuffer) (b : Char)
    (h1 : ∀ c ∈ buf, isSQLSpace c = true → c = ' ')
    (h2 : noConsecWS buf) :
    (∀ c ∈ SQLBuffer.WriteSQL buf b, isSQLSpace c = true → c = ' ') ∧
      noConsecWS (SQLBuffer.WriteSQL buf b) := by
  unfold SQLBuffer.WriteSQL
  by_cases hws : b = '\n' ∨ b = '\t' ∨ b = ' '
  · rw [if_pos hws]
    by_cases hcond : buf = [] ∨ buf.getLast? ≠ some ' '
    · rw [if_pos hcond]
      constructor
      · intro c hc hsp
        rcases List.mem_append.mp hc with h | h
        · exact h1 c h hsp
        · simpa using h
      · rw [noConsecWS, List.chain'_append]
        refine ⟨h2, List.chain'_singleton _, ?_⟩
        intro x hx y hy
        have hxl : buf.getLast? = some x := hx
        rcases hcond with hnil | hlast
        · simp [hnil] at hxl
        · have hxmem : x ∈ buf := by
            obtain ⟨hne, he⟩ := List.mem_getLast?_eq_getLast hx
            exact he ▸ List.getLast_mem hne
          rintro ⟨hxs, -⟩
          exact hlast (by rw [hxl, h1 x hxmem hxs])
    · rw [if_neg hcond]
      exact ⟨h1, h2⟩
  · rw [if_neg hws]
    have hbs : isSQLSpace b = false := by
      rw [← Bool.not_eq_true, isSQLSpace_iff]
      exact hws
    constructor
    · intro c hc hsp
      rcases List.mem_append.mp hc with h | h
      · exact h1 c h hsp
      · have : c = b := by simpa using h
        rw [this, hbs] at hsp
        cases hsp
    · rw [noConsecWS, List.chain'_append]
      refine ⟨h2, List.chain'_singleton _, ?_⟩
      intro x hx y hy
      have : y = b := by
        have := hy
        simp at this
        exact this.symm
      rintro ⟨-, hys⟩
      rw [this, hbs] at hys
      cases hys

/-- Feeding any byte sequence preserves the buffer invariant. -/
theorem writeAll_preserves_inv (input : List Char) :
    ∀ buf : SQLBuffer, (∀ c ∈ buf, isSQLSpace c = true → c = ' ') → noConsecWS buf →
      (∀ c ∈ SQLBuffer.writeAll buf input, isSQLSpace c = true → c = ' ') ∧
        noConsecWS (SQLBuffer.writeAll buf input) := by
  induction input with
  | nil => exact fun buf h1 h2 => ⟨h1, h2⟩
  | cons b bs ih =>
    intro buf h1 h2
    have step := writeSQL_preserves_inv buf b h1 h2
    exact ih (SQLBuffer.WriteSQL buf b) step.1 step.2

/-- Claim C4: `WriteSQL` appends a whitespace byte as a single space only
when the buffer is empty or its last byte is not a space, appends
non-whitespace bytes verbatim, the accumulated text of a fresh buffer never
contains two consecutive whitespace bytes, and feeding the bytes of
`"a\n\t  b"` then draining yields `"a b"`. -/
theorem writeSQL_collapses_whitespace :
    (∀ (buf : SQLBuffer) (b : Char), (b = '\n' ∨ b = '\t' ∨ b = ' ') →
      SQLBuffer.WriteSQL buf b =
        (if buf = [] ∨ buf.getLast? ≠ some ' ' then buf ++ [' '] else buf)) ∧
    (∀ (buf : SQLBuffer) (b : Char), ¬(b = '\n' ∨ b = '\t' ∨ b = ' ') →
      SQLBuffer.WriteSQL buf b = buf ++ [b]) ∧
    (∀ input : List Char, noConsecWS (SQLBuffer.writeAll [] input)) ∧
    (SQLBuffer.Dump (SQLBuffer.writeAll [] ("a\n\t  b".data))).1 = "a b" := by
  refine ⟨fun buf b h => ?_, fun buf b h => ?_, fun input => ?_, by decide⟩
  · unfold SQLBuffer.WriteSQL
    rw [if_pos h]
  · unfold SQLBuffer.WriteSQL
    rw [if_neg h]
  · exact (writeAll_preserves_inv input [] (by simp) List.chain'_nil).2

/-- Witness for Claim C4 at concrete buffers and bytes. -/
theorem writeSQL_collapses_whitespace_witness :
    SQLBuffer.WriteSQL ['a'] '\n' =
      (if (['a'] : SQLBuffer) = [] ∨ (['a'] : SQLBuffer).getLast? ≠ some ' '
        then ['a'] ++ [' '] else ['a']) ∧
    SQLBuffer.WriteSQL ['a'] 'x' = ['a'] ++ ['x'] ∧
    noConsecWS (SQLBuffer.writeAll [] ("a\n\t  b".data)) :=
  ⟨writeSQL_collapses_whitespace.1 ['a'] '\n' (by decide),
   writeSQL_collapses_whitespace.2.1 ['a'] 'x' (by decide),
   writeSQL_collapses_whitespace.2.2.1 ("a\n\t  b".data)⟩

end GenModel
